import Mathlib

/-!
Verification development for the Euronext ESG extraction pipeline
(`src/euronext_scraper.py`, `json_to_csv_converter.py`).

The Python code is shallowly embedded: pure string manipulations are
translated to executable Lean functions mirroring Python semantics
(`str.strip`, `str.split`, `str.replace` on one-character needles,
insertion-ordered `dict` updates), the HTTP layer is an oracle
`Nat → Response` giving the outcome of each attempt for a URL, and
BeautifulSoup is an oracle `String → Soup` turning raw HTML into the
element structure the scraper inspects (tables, rows, cells, the
card-footer paragraph).
-/


/-- Python `str.strip()` restricted to whitespace: drop leading and trailing
whitespace characters from a character list. -/
def trimChars (l : List Char) : List Char :=
  ((l.dropWhile Char.isWhitespace).reverse.dropWhile Char.isWhitespace).reverse

/-- Python `s.strip()`. -/
def pyStrip (s : String) : String :=
  ⟨trimChars s.data⟩

/-- Python `s.rstrip(' -')`: drop trailing characters that are a space or a
hyphen. -/
def rstripSpaceDash (s : String) : String :=
  ⟨(s.data.reverse.dropWhile (fun c => c = ' ' || c = '-')).reverse⟩

/-- Python `sep.join(parts)`. -/
def pyJoin (sep : String) : List String → String
  | [] => ""
  | [x] => x
  | x :: y :: xs => x ++ sep ++ pyJoin sep (y :: xs)

/-- Fuel-driven worker for Python `str.split(sep)`: scan left to right for
non-overlapping occurrences of `sep`, cutting the scanned text at each one.
The fuel only bounds the recursion; callers always supply enough of it
(one unit per character plus one). -/
def splitOnFuel (sep : List Char) : Nat → List Char → List Char → List (List Char)
  | 0, l, acc => [acc.reverse ++ l]
  | _ + 1, [], acc => [acc.reverse]
  | fuel + 1, c :: rest, acc =>
    if sep.isPrefixOf (c :: rest) then
      acc.reverse :: splitOnFuel sep fuel (List.drop sep.length (c :: rest)) []
    else
      splitOnFuel sep fuel rest (c :: acc)

/-- Python `s.split(sep)` for a non-empty separator. -/
def pySplitS (s sep : String) : List String :=
  (splitOnFuel sep.data (s.data.length + 1) s.data []).map (fun l => ⟨l⟩)

/-- Python `needle in hay` (substring membership): the split on `needle`
produced more than one part. -/
def strContains (hay needle : String) : Bool :=
  decide (1 < (pySplitS hay needle).length)

/-- Python `s.replace(a, b)` for a one-character `a`: substitute every
occurrence of the character `a` by the string `b`. -/
def pyReplaceChar (s : String) (a : Char) (b : String) : String :=
  ⟨(s.data.map (fun c => if c = a then b.data else [c])).flatten⟩

/-- Insertion-ordered Python `dict` update `d[k] = v` on an association
list: overwrite in place if the key is present, append otherwise. -/
def dictInsert {α : Type} (d : List (String × α)) (k : String) (v : α) :
    List (String × α) :=
  if d.any (fun p => p.1 == k) then
    d.map (fun p => if p.1 == k then (k, v) else p)
  else
    d ++ [(k, v)]

/-- Python `d.get(k)` on an insertion-ordered association list. -/
def pyDictGet {α : Type} (d : List (String × α)) (k : String) : Option α :=
  (d.find? (fun p => p.1 == k)).map (fun p => p.2)

/-- Python `d.get(k, dflt)`. -/
def pyDictGetD (d : List (String × String)) (k dflt : String) : String :=
  (pyDictGet d k).getD dflt

/-! ## Transport (`make_request`, lines 84-143) -/

/-- Outcome of one HTTP attempt as seen by `make_request`: either the
session produced a response with a status code and a textual body, or the
request failed at the network level with an error message
(`requests.exceptions.RequestException`). -/
inductive Response where
  | status (code : Nat) (body : String)
  | netErr (msg : String)
deriving DecidableEq

/-- Result of `make_request`: Python `None` (the 404 / undecodable-payload
path), returned text content, or a re-raised exception carrying its
message. -/
inductive FetchResult where
  | notFound
  | content (s : String)
  | raised (msg : String)
deriving DecidableEq

/-- `self.retry_attempts` (line 26). -/
def retry_attempts : Nat := 2

/-- Message of the exception attached to a failed attempt: the message of
the network error, or the text of the `HTTPError` that
`raise_for_status` raises for a 4xx/5xx status. -/
def errText : Response → String
  | .netErr m => m
  | .status code _ => "HTTP " ++ toString code

/-- Count of characters outside printable ASCII among the first 20
characters of the body (line 104). -/
def nonPrintableCount (s : String) : Nat :=
  ((s.data.take 20).filter (fun c => c.toNat < 32 || 126 < c.toNat)).length

/-- Body handling after a successful status (lines 100-135): if the first
20 characters look binary, try the decompression libraries (modelled by
the oracle `decomp`; `none` covers both the missing-library and the
failed-decompression paths, which `return None`); otherwise return the
text as is. -/
def processBody (decomp : String → Option String) (body : String) : FetchResult :=
  if 0 < body.length ∧ 10 < nonPrintableCount body then
    match decomp body with
    | some s => .content s
    | none => .notFound
  else .content body

/-- Worker for `make_request` with explicit structural fuel. The guard
`retry_count < retry_attempts` means at most two recursive calls ever
happen, so the fixed fuel `retry_attempts + 1` used by `make_request`
keeps the zero-fuel branch unreachable. -/
def makeRequestAux (resp : Nat → Response) (decomp : String → Option String) :
    Nat → Nat → FetchResult
  | 0, retry_count => .raised (errText (resp retry_count))
  | fuel + 1, retry_count =>
    match resp retry_count with
    | .status 404 _ => .notFound
    | .status code body =>
      if 400 ≤ code ∧ code < 600 then
        if retry_count < retry_attempts then
          makeRequestAux resp decomp fuel (retry_count + 1)
        else .raised (errText (.status code body))
      else processBody decomp body
    | .netErr msg =>
      if retry_count < retry_attempts then
        makeRequestAux resp decomp fuel (retry_count + 1)
      else .raised msg

/-- `make_request(url, retry_count)` (lines 84-143) over an oracle giving
each attempt's raw outcome: a 404 returns `None` at once; any other
4xx/5xx status (via `raise_for_status`) or network failure retries while
`retry_count < retry_attempts`, re-raising the last failure once the
budget is exhausted; a successful status returns the (possibly
decompressed) body. -/
def make_request (resp : Nat → Response) (decomp : String → Option String)
    (retry_count : Nat) : FetchResult :=
  makeRequestAux resp decomp (retry_attempts + 1) retry_count

/-! ## Table Extractor (`parse_html_table`, `extract_metadata`, lines 145-270) -/

/-- One `<tr>` element: the raw text of its `<th>` cells and of its `<td>`
cells, in document order (`get_text(strip=True)` is applied at the use
sites via `pyStrip`). -/
structure HtmlRow where
  th : List String
  td : List String
deriving DecidableEq

/-- One `<table>` element: its `class` attribute (BeautifulSoup returns a
list of tokens, or `None` when absent) and its `<tr>` elements. -/
structure HtmlTable where
  classAttr : Option (List String)
  trs : List HtmlRow
deriving DecidableEq

/-- The parts of a BeautifulSoup document the scraper inspects: every
`<table>` in document order, and the text of the first `<p>` of the
`card-footer` `<div>` when both exist (`none` covers a missing footer and
a footer without a paragraph alike, both of which make
`extract_metadata` return `None`). -/
structure Soup where
  tables : List HtmlTable
  cardFooterP : Option String
deriving DecidableEq

/-- Metadata record built by `extract_metadata` (lines 250-265). -/
structure MetadataR where
  raw_source : String
  source : Option String
  last_update : Option String
deriving DecidableEq

/-- Core of `extract_metadata` on the footer paragraph text (lines
250-263): split on `"Source:"`, then split the trimmed second part on
`"Last Update:"`; note both Python splits cut at every occurrence of
their marker. -/
def extract_metadata_text (source_text : String) : MetadataR :=
  if strContains source_text "Source:" then
    let parts := pySplitS source_text "Source:"
    if 1 < parts.length then
      let source_part := pyStrip (parts.getD 1 "")
      if strContains source_part "Last Update:" then
        let source_date_parts := pySplitS source_part "Last Update:"
        { raw_source := source_text
          source := some (rstripSpaceDash (pyStrip (source_date_parts.getD 0 "")))
          last_update :=
            if 1 < source_date_parts.length then
              some (pyStrip (source_date_parts.getD 1 ""))
            else none }
      else
        { raw_source := source_text, source := some source_part, last_update := none }
    else
      { raw_source := source_text, source := none, last_update := none }
  else
    { raw_source := source_text, source := none, last_update := none }

/-- `extract_metadata(soup)` (lines 238-270): `None` unless the card
footer and its first paragraph exist, otherwise the record built from the
paragraph's stripped text. -/
def extract_metadata (s : Soup) : Option MetadataR :=
  s.cardFooterP.map (fun txt => extract_metadata_text (pyStrip txt))

/-- Table-selection predicate (lines 160-170): the `class` attribute is a
non-empty token list whose space-joined string contains `"table"` as a
substring (Python `'table' in class_str`). -/
def hasTableClass (t : HtmlTable) : Bool :=
  match t.classAttr with
  | some cls => !cls.isEmpty && strContains (pyJoin " " cls) "table"
  | none => false

/-- Table selection (lines 160-174): the first table matching
`hasTableClass`, else the first table in document order, else nothing. -/
def selectTable (tables : List HtmlTable) : Option HtmlTable :=
  match tables.find? hasTableClass with
  | some t => some t
  | none => tables.head?

/-- Header extraction from the first row (lines 184-189): `<th>` cells,
falling back to `<td>` cells when the row has no `<th>`, each stripped. -/
def headersOf (header_row : HtmlRow) : List String :=
  (if header_row.th.isEmpty then header_row.td else header_row.th).map pyStrip

/-- The `row_data` dictionary of one accepted row (lines 203-207): for
each kept cell, bind the header at the same index (the
`f'column_{i}'` fallback is kept although the guard makes it
unreachable) to the stripped cell text, with Python-dict overwrite
semantics on duplicate headers. -/
def buildRowData (headers : List String) (cells : List String) :
    List (String × String) :=
  cells.enum.foldl
    (fun row_data ic =>
      dictInsert row_data (headers.getD ic.1 ("column_" ++ toString ic.1)) (pyStrip ic.2))
    []

/-- Processing of one non-header row (lines 198-213): take the `<td>`
cells; accept the row only when they are non-empty and at least as many
as the headers; keep the first `len(headers)` of them; discard the row
when every value of the resulting dictionary strips to the empty
string. -/
def processRow (headers : List String) (row : HtmlRow) :
    Option (List (String × String)) :=
  let cells := row.td
  if cells ≠ [] ∧ headers.length ≤ cells.length then
    let row_data := buildRowData headers (cells.take headers.length)
    if (row_data.map (fun p => p.2)).any (fun v => !(pyStrip v == "")) then
      some row_data
    else none
  else none

/-- The structured result of `parse_html_table` (lines 222-226): headers,
accepted data rows, their count, and the optional footer metadata. -/
structure ParseResult where
  headers : List String
  data : List (List (String × String))
  row_count : Nat
  metadata : Option MetadataR
deriving DecidableEq

/-- `parse_html_table(html)` (lines 145-236) over the parsed document:
`None` when there is no table, no row, no header, or no accepted data
row; otherwise the headers, the accepted rows of the selected table and
the footer metadata. -/
def parse_html_table (s : Soup) : Option ParseResult :=
  match selectTable s.tables with
  | none => none
  | some table =>
    match table.trs with
    | [] => none
    | header_row :: body =>
      let headers := headersOf header_row
      if headers = [] then none
      else
        let data := body.filterMap (processRow headers)
        let metadata := extract_metadata s
        if data = [] then none
        else some { headers := headers, data := data, row_count := data.length,
                    metadata := metadata }

/-- Re-serialization of an emitted row: read the row dictionary back in
the emitted header order (Python `row_data[header]`, total because every
header was used as a key). -/
def reserialize (headers : List String) (row_data : List (String × String)) :
    List String :=
  headers.map (fun h => (pyDictGet row_data h).getD "")

/-! ## Entity Aggregator (`scrape_company`, lines 284-390) -/

/-- One input entity (a CSV record): `Name`, `ISIN` and `MIC` are present
(rows missing ISIN or MIC were dropped by `read_csv`), the remaining
fields are fetched with `dict.get` and may be absent. -/
structure Company where
  name : String
  isin : String
  mic : String
  symbol : Option String
  market : Option String
  currency : Option String
deriving DecidableEq

/-- One entry of `self.failures` (lines 336-343 and 375-382). -/
structure FailureRec where
  company : String
  isin : String
  mic : String
  endpoint : String
  error : String
  url : String
deriving DecidableEq

/-- The `company_data` record (lines 286-297) as finalized for a
successful entity. -/
structure CompanyData where
  company : Company
  esg_data : List (String × ParseResult)
  scrape_timestamp : String
deriving DecidableEq

/-- The three indicator endpoints (lines 17-21). -/
def endpoints : List String :=
  ["esg_environmental_indicators", "esg_social_governance_indicators",
   "esg_eu_taxonomy_csrd_eligibility"]

/-- `self.base_urls['indicators']` (line 13). -/
def indicatorsBase : String := "https://live.euronext.com/en/ajax/getEsgIndicatorsBlock"

/-- `self.base_urls['ratings']` (line 14). -/
def ratingsBase : String := "https://live.euronext.com/en/ajax/getEsgRatingsBlock"

/-- The external collaborators of one run: the per-URL, per-attempt HTTP
outcome, the decompression libraries, the HTML parser, and the capture
timestamp `datetime.now().isoformat()`. -/
structure Env where
  resp : String → Nat → Response
  decomp : String → Option String
  soupOf : String → Soup
  now : String

/-- Outcome of `self.make_request(url)` as called by `scrape_company`. -/
def envFetch (env : Env) (url : String) : FetchResult :=
  make_request (env.resp url) env.decomp 0

/-- The four (endpoint-name, URL) attempts of one entity, in processing
order: the three indicator endpoints
(`{base}/{ISIN}-{MIC}/{endpoint}`, line 305) followed by the ratings
endpoint (`{ratings base}/{ISIN}-{MIC}`, line 347). -/
def companyAttempts (c : Company) : List (String × String) :=
  (endpoints.map
    (fun ep => (ep, indicatorsBase ++ "/" ++ (c.isin ++ "-" ++ c.mic) ++ "/" ++ ep)))
  ++ [("esg_ratings", ratingsBase ++ "/" ++ (c.isin ++ "-" ++ c.mic))]

/-- Processing of one endpoint attempt inside `scrape_company` (the loop
body, lines 309-343, and the structurally identical ratings block, lines
350-382): a raised transport error becomes one failure record and the
attempt yields no result; a 404 (`None`) and a whitespace-only body yield
nothing; otherwise the body is parsed and the attempt yields a result
exactly when the parse succeeded with `row_count > 0`. -/
def endpointStep (env : Env) (c : Company) (ep url : String) :
    Option (String × ParseResult) × List FailureRec :=
  match envFetch env url with
  | .raised msg =>
    (none, [{ company := c.name, isin := c.isin, mic := c.mic, endpoint := ep,
              error := msg, url := url }])
  | .notFound => (none, [])
  | .content html =>
    if pyStrip html = "" then (none, [])
    else
      match parse_html_table (env.soupOf html) with
      | some parsed_data =>
        if 0 < parsed_data.row_count then (some (ep, parsed_data), []) else (none, [])
      | none => (none, [])

/-- `scrape_company(company, ...)` (lines 284-390): run the four attempts
in order, collect the per-endpoint results into `esg_data` (distinct
endpoint names, so dictionary insertion is plain appending) and the
failures in order; finalize and emit the entity record exactly when
`has_any_data`, i.e. when some attempt yielded a result. -/
def scrape_company (env : Env) (c : Company) :
    Option CompanyData × List FailureRec :=
  let steps := (companyAttempts c).map (fun p => endpointStep env c p.1 p.2)
  let esg_data := steps.filterMap (fun s => s.1)
  let failures := (steps.map (fun s => s.2)).flatten
  (if esg_data.isEmpty then none
   else some { company := c, esg_data := esg_data, scrape_timestamp := env.now },
   failures)

/-! ## Dataset Builder (`scrape_all` / `test_scrape` accumulation and
`save_results`, lines 392-458) -/

/-- The driver loop over the entity list: each entity's record (if any)
is appended to `self.results` and its failure records to
`self.failures`. -/
def runScraper (env : Env) (companies : List Company) :
    List CompanyData × List FailureRec :=
  companies.foldl
    (fun acc c =>
      (acc.1 ++ ((scrape_company env c).1).toList, acc.2 ++ (scrape_company env c).2))
    ([], [])

/-- The run metadata written next to the success dataset (lines 432-440;
`scrape_date` is an external timestamp and is omitted). -/
structure RunMetadata where
  total_companies_attempted : Nat
  successful_companies : Nat
  failed_companies : Nat
  endpoints_per_company : Nat
  test_mode : Bool
deriving DecidableEq

/-- The metadata block of `save_results` (lines 432-440). -/
def save_results_metadata (results : List CompanyData) (failures : List FailureRec)
    (test_mode : Bool) : RunMetadata :=
  { total_companies_attempted := results.length + failures.length
    successful_companies := results.length
    failed_companies := failures.length
    endpoints_per_company := 4
    test_mode := test_mode }

/-! ## Flattener, pivot projection (`convert_pivot_table`,
`json_to_csv_converter.py` lines 161-200) -/

/-- The `col_prefix` expression (converter line 187): concatenate
category, `"_"` and the indicator text, then apply the five `replace`
calls in order: spaces, `/` and `-` become underscores, `(` and `)` are
removed. -/
def col_pref (category indicator_name : String) : String :=
  pyReplaceChar (pyReplaceChar (pyReplaceChar (pyReplaceChar (pyReplaceChar
    (category ++ "_" ++ indicator_name) ' ' "_") '(' "") ')' "") '/' "_") '-' "_"

/-- The four columns emitted for one (category, data row) pair (converter
lines 184-192), in assignment order. -/
def pivotEntriesFor (category : String) (indicator_row : List (String × String)) :
    List (String × Option String) :=
  let indicator_name := pyDictGetD indicator_row "Indicator" ""
  let unit := pyDictGetD indicator_row "Unit" ""
  [(col_pref category indicator_name ++ "_2024", pyDictGet indicator_row "2024"),
   (col_pref category indicator_name ++ "_2023", pyDictGet indicator_row "2023"),
   (col_pref category indicator_name ++ "_2022", pyDictGet indicator_row "2022"),
   (col_pref category indicator_name ++ "_unit", some unit)]

/-- One pivot row (converter lines 171-194): the base company fields,
then for every category and every data row the four indicator columns,
inserted with Python-dict semantics. -/
def pivotRowOf (cd : CompanyData) : List (String × Option String) :=
  let base : List (String × Option String) :=
    [("company_name", some cd.company.name), ("isin", some cd.company.isin),
     ("mic", some cd.company.mic), ("symbol", cd.company.symbol),
     ("market", cd.company.market), ("currency", cd.company.currency),
     ("scrape_timestamp", some cd.scrape_timestamp)]
  cd.esg_data.foldl
    (fun row cat_data =>
      cat_data.2.data.foldl
        (fun row r =>
          (pivotEntriesFor cat_data.1 r).foldl (fun row e => dictInsert row e.1 e.2) row)
        row)
    base

/-- `convert_pivot_table` (converter lines 161-200): one pivot row per
company of the dataset. -/
def convert_pivot_table (companies : List CompanyData) :
    List (List (String × Option String)) :=
  companies.map pivotRowOf

/-- Single-pass character substitution equivalent to the chain of
`replace` calls in `col_pref` (used to state what the chain does). -/
def prefixCharMap (c : Char) : List Char :=
  if c = ' ' ∨ c = '/' ∨ c = '-' then ['_']
  else if c = '(' ∨ c = ')' then []
  else [c]

/-! ## Derived predicates and concrete fixtures used by the theorems -/

/-- An attempt outcome that makes `make_request` take the retry path: a
network-level failure, or a non-404 status in the 400-599 range (the ones
`raise_for_status` turns into an exception). -/
def retryable : Response → Prop
  | .netErr _ => True
  | .status code _ => code ≠ 404 ∧ 400 ≤ code ∧ code < 600

def env404 : Env := ⟨fun _ _ => .status 404 "gone", fun _ => none, fun _ => ⟨[], none⟩, "t0"⟩

def companyW : Company := ⟨"Acme", "IS1", "XPAR", none, none, none⟩

def respW : Nat → Response := fun n => if n < 2 then .netErr "boom" else .status 200 "ok"

def tableA : HtmlTable := ⟨some ["plain"], []⟩

def tableB : HtmlTable := ⟨some ["stable"], []⟩

def soupW : Soup := ⟨[⟨none, [⟨["H"], []⟩, ⟨[], ["v"]⟩]⟩], none⟩

def soupDup : Soup := ⟨[⟨none, [⟨["A", "A"], []⟩, ⟨[], ["x", "y"]⟩]⟩], none⟩

/-- Column-name prefix as the claim words it: parentheses are replaced by
underscores like the other special characters (this definition follows
the claim, not the code, and is only used to exhibit the divergence). -/
def col_pref_claimed (category indicator_name : String) : String :=
  pyReplaceChar (pyReplaceChar (pyReplaceChar (pyReplaceChar (pyReplaceChar
    (category ++ "_" ++ indicator_name) ' ' "_") '(' "_") ')' "_") '/' "_") '-' "_"

/-! ## Aggregator predicates and fixtures -/

/-- One endpoint attempt produced an extraction result with a positive
row count: the fetch returned a non-whitespace body whose parse succeeded
with `row_count > 0`. -/
def attemptYieldsData (env : Env) (url : String) : Prop :=
  ∃ html parsed_data, envFetch env url = .content html ∧ pyStrip html ≠ "" ∧
    parse_html_table (env.soupOf html) = some parsed_data ∧ 0 < parsed_data.row_count

def envA : Env := ⟨fun _ _ => .status 200 "T", fun _ => none, fun _ => soupW, "t0"⟩

def envB : Env := ⟨fun _ _ => .netErr "boom", fun _ => none, fun _ => soupW, "t0"⟩

/-! ## Theorems -/

theorem makeRequestAux_404 (resp : Nat → Response) (decomp : String → Option String)
    (fuel rc : Nat) (body : String) (h : resp rc = .status 404 body) :
    makeRequestAux resp decomp (fuel + 1) rc = .notFound := by
  simp [makeRequestAux, h]

theorem makeRequestAux_success (resp : Nat → Response) (decomp : String → Option String)
    (fuel rc : Nat) (code : Nat) (body : String) (h : resp rc = .status code body)
    (h404 : code ≠ 404) (hc : ¬(400 ≤ code ∧ code < 600)) :
    makeRequestAux resp decomp (fuel + 1) rc = processBody decomp body := by
  simp only [makeRequestAux]
  rw [h]
  split
  · rename_i heq; cases heq; exact absurd rfl h404
  · rename_i heq; injection heq with h1 h2; subst h1; subst h2; rw [if_neg hc]
  · rename_i heq; cases heq

theorem makeRequestAux_statusRetry (resp : Nat → Response)
    (decomp : String → Option String) (fuel rc : Nat) (code : Nat) (body : String)
    (h : resp rc = .status code body) (h404 : code ≠ 404)
    (hc : 400 ≤ code ∧ code < 600) :
    makeRequestAux resp decomp (fuel + 1) rc =
      if rc < retry_attempts then makeRequestAux resp decomp fuel (rc + 1)
      else .raised (errText (.status code body)) := by
  simp only [makeRequestAux]
  rw [h]
  split
  · rename_i heq; cases heq; exact absurd rfl h404
  · rename_i heq; injection heq with h1 h2; subst h1; subst h2; rw [if_pos hc]
  · rename_i heq; cases heq

theorem makeRequestAux_netErr (resp : Nat → Response) (decomp : String → Option String)
    (fuel rc : Nat) (msg : String) (h : resp rc = .netErr msg) :
    makeRequestAux resp decomp (fuel + 1) rc =
      if rc < retry_attempts then makeRequestAux resp decomp fuel (rc + 1)
      else .raised msg := by
  simp [makeRequestAux, h]

theorem makeRequestAux_retryable (resp : Nat → Response)
    (decomp : String → Option String) (fuel rc : Nat) (h : retryable (resp rc)) :
    makeRequestAux resp decomp (fuel + 1) rc =
      if rc < retry_attempts then makeRequestAux resp decomp fuel (rc + 1)
      else .raised (errText (resp rc)) := by
  cases hr : resp rc with
  | status code body =>
    rw [hr] at h
    rcases h with ⟨h404, hc⟩
    exact makeRequestAux_statusRetry resp decomp fuel rc code body hr h404 hc
  | netErr msg =>
    rw [makeRequestAux_netErr resp decomp fuel rc msg hr]
    rfl

theorem makeRequestAux_congr (resp resp2 : Nat → Response)
    (decomp : String → Option String) :
    ∀ fuel rc, fuel + rc = retry_attempts + 1 → rc ≤ retry_attempts →
      (∀ i, i ≤ retry_attempts → resp2 i = resp i) →
      makeRequestAux resp2 decomp fuel rc = makeRequestAux resp decomp fuel rc := by
  intro fuel
  induction fuel with
  | zero =>
    intro rc hsum hrc _
    rw [retry_attempts] at hsum hrc
    omega
  | succ n ih =>
    intro rc hsum hrc hagree
    have h0 : resp2 rc = resp rc := hagree rc hrc
    cases hr : resp rc with
    | status code body =>
      by_cases h404 : code = 404
      · subst h404
        rw [makeRequestAux_404 resp decomp n rc body hr,
          makeRequestAux_404 resp2 decomp n rc body (h0.trans hr)]
      · by_cases hc : 400 ≤ code ∧ code < 600
        · rw [makeRequestAux_statusRetry resp decomp n rc code body hr h404 hc,
            makeRequestAux_statusRetry resp2 decomp n rc code body (h0.trans hr) h404 hc]
          by_cases hlt : rc < retry_attempts
          · rw [if_pos hlt, if_pos hlt]
            exact ih (rc + 1) (by omega) (by omega) hagree
          · rw [if_neg hlt, if_neg hlt]
        · rw [makeRequestAux_success resp decomp n rc code body hr h404 hc,
            makeRequestAux_success resp2 decomp n rc code body (h0.trans hr) h404 hc]
    | netErr msg =>
      rw [makeRequestAux_netErr resp decomp n rc msg hr,
        makeRequestAux_netErr resp2 decomp n rc msg (h0.trans hr)]
      by_cases hlt : rc < retry_attempts
      · rw [if_pos hlt, if_pos hlt]
        exact ih (rc + 1) (by omega) (by omega) hagree
      · rw [if_neg hlt, if_neg hlt]

theorem processBody_ne_raised (decomp : String → Option String) (body msg : String) :
    processBody decomp body ≠ FetchResult.raised msg := by
  unfold processBody
  split
  · split <;> simp
  · simp

/-- C3: a Transport call whose response has HTTP status 404 returns `None`
(`NotFound`) from the very first attempt — the outcome does not depend on
any later attempt, so no retry happens — and the calling aggregator
records neither a failure record nor an endpoint result for that call. -/
theorem claim_C3 (env : Env) (c : Company) (ep url body : String)
    (h : env.resp url 0 = Response.status 404 body) :
    make_request (env.resp url) env.decomp 0 = FetchResult.notFound ∧
    (∀ (resp2 : Nat → Response) (decomp2 : String → Option String),
      resp2 0 = Response.status 404 body →
      make_request resp2 decomp2 0 = FetchResult.notFound) ∧
    endpointStep env c ep url = (none, []) := by
  have hmr : make_request (env.resp url) env.decomp 0 = FetchResult.notFound :=
    makeRequestAux_404 (env.resp url) env.decomp retry_attempts 0 body h
  refine ⟨hmr, ?_, ?_⟩
  · intro resp2 decomp2 h2
    exact makeRequestAux_404 resp2 decomp2 retry_attempts 0 body h2
  · simp [endpointStep, envFetch, hmr]

theorem claim_C3_witness :
    make_request (env404.resp "u") env404.decomp 0 = FetchResult.notFound ∧
    (∀ (resp2 : Nat → Response) (decomp2 : String → Option String),
      resp2 0 = Response.status 404 "gone" →
      make_request resp2 decomp2 0 = FetchResult.notFound) ∧
    endpointStep env404 companyW "esg_ratings" "u" = (none, []) :=
  claim_C3 env404 companyW "esg_ratings" "u" "gone" rfl

/-- C4: when the first two attempts of a Transport call fail (network
failure or a retried status), the call is retried and decided by the
third attempt: a successful printable third attempt returns its content,
a successful third attempt never raises, a third failure re-raises that
failure's message, and the whole call never depends on any attempt beyond
the retry budget (the first plus `retry_attempts` retries). -/
theorem claim_C4 (resp : Nat → Response) (decomp : String → Option String)
    (h0 : retryable (resp 0)) (h1 : retryable (resp 1)) :
    (∀ code body, resp 2 = Response.status code body → ¬(400 ≤ code ∧ code < 600) →
      nonPrintableCount body ≤ 10 →
      make_request resp decomp 0 = FetchResult.content body) ∧
    (∀ code body, resp 2 = Response.status code body → ¬(400 ≤ code ∧ code < 600) →
      ∀ msg, make_request resp decomp 0 ≠ FetchResult.raised msg) ∧
    (retryable (resp 2) →
      make_request resp decomp 0 = FetchResult.raised (errText (resp 2))) ∧
    (∀ resp2 : Nat → Response, (∀ i, i ≤ retry_attempts → resp2 i = resp i) →
      make_request resp2 decomp 0 = make_request resp decomp 0) := by
  have hstep : make_request resp decomp 0 = makeRequestAux resp decomp 1 2 := by
    show makeRequestAux resp decomp (retry_attempts + 1) 0 = _
    rw [makeRequestAux_retryable resp decomp retry_attempts 0 h0,
      if_pos (show 0 < retry_attempts by decide)]
    show makeRequestAux resp decomp (1 + 1) 1 = _
    rw [makeRequestAux_retryable resp decomp 1 1 h1,
      if_pos (show 1 < retry_attempts by decide)]
  have h404 : ∀ code, ¬(400 ≤ code ∧ code < 600) → code ≠ 404 := by
    intro code hc heq
    exact hc (by omega)
  refine ⟨?_, ?_, ?_, ?_⟩
  · intro code body h2 hc hnp
    rw [hstep, makeRequestAux_success resp decomp 0 2 code body h2 (h404 code hc) hc]
    unfold processBody
    rw [if_neg (fun hh => absurd hh.2 (not_lt.mpr hnp))]
  · intro code body h2 hc msg
    rw [hstep, makeRequestAux_success resp decomp 0 2 code body h2 (h404 code hc) hc]
    exact processBody_ne_raised decomp body msg
  · intro h2
    rw [hstep, makeRequestAux_retryable resp decomp 0 2 h2,
      if_neg (show ¬(2 < retry_attempts) by decide)]
  · intro resp2 hag
    exact makeRequestAux_congr resp resp2 decomp (retry_attempts + 1) 0 (by omega)
      (Nat.zero_le _) hag

theorem claim_C4_witness :
    make_request respW (fun _ => none) 0 = FetchResult.content "ok" :=
  (claim_C4 respW (fun _ => none) trivial trivial).1 200 "ok" rfl (by decide) (by decide)

/-! ## Metadata extraction (claim C7) -/

/-- C7 amended: when the footer text contains exactly one `"Source:"`
marker (its split has exactly two parts) and the trimmed remainder
contains exactly one `"Last Update:"` marker, the extracted `source` is
the trimmed text between the markers with all trailing spaces and hyphens
removed, and `last_update` is the trimmed text after the second
marker. -/
theorem claim_C7_amended (t a b x y : String)
    (h1 : pySplitS t "Source:" = [a, b])
    (h2 : pySplitS (pyStrip b) "Last Update:" = [x, y]) :
    extract_metadata_text t =
      { raw_source := t, source := some (rstripSpaceDash (pyStrip x)),
        last_update := some (pyStrip y) } := by
  have hc1 : strContains t "Source:" = true := by simp [strContains, h1]
  have hc2 : strContains (pyStrip b) "Last Update:" = true := by simp [strContains, h2]
  simp [extract_metadata_text, hc1, h1, hc2, h2, List.getD]

theorem claim_C7_witness :
    extract_metadata_text "Source: ABC Ltd - Last Update: 2024-01-01" =
      { raw_source := "Source: ABC Ltd - Last Update: 2024-01-01",
        source := some "ABC Ltd", last_update := some "2024-01-01" } := by
  have h := claim_C7_amended "Source: ABC Ltd - Last Update: 2024-01-01" ""
    " ABC Ltd - Last Update: 2024-01-01" "ABC Ltd - " " 2024-01-01"
    (by decide) (by decide)
  rw [h]
  decide

/-- C7 counterexample: on a footer text with a repeated `"Source:"`
marker, the code splits at every occurrence and examines only the segment
between the first two, so it extracts `source = "A"` and no
`last_update`, while the claim predicts `source = "A Source: B"` (the
whole text between the first `"Source:"` and `"Last Update:"`) and
`last_update = "C"`. -/
theorem claim_C7_counterexample :
    (extract_metadata_text "Source: A Source: B Last Update: C").source = some "A" ∧
    (extract_metadata_text "Source: A Source: B Last Update: C").last_update = none ∧
    (extract_metadata_text "Source: A Source: B Last Update: C").source ≠
      some "A Source: B" ∧
    (extract_metadata_text "Source: A Source: B Last Update: C").last_update ≠
      some "C" := by
  decide

/-! ## Table selection (claim C5) -/

theorem first_match_find? {α : Type} (p : α → Bool) :
    ∀ (l : List α) (t : α), p t = true →
      (∃ pre post, l = pre ++ t :: post ∧ ∀ u ∈ pre, p u = false) →
      l.find? p = some t := by
  intro l
  induction l with
  | nil =>
    rintro t _ ⟨pre, post, h, -⟩
    exact absurd h (by simp)
  | cons a l ih =>
    rintro t ht ⟨pre, post, heq, hpre⟩
    cases pre with
    | nil =>
      injection heq with h1 h2
      subst h1
      exact List.find?_cons_of_pos l ht
    | cons b pre2 =>
      injection heq with h1 h2
      subst h1
      have hb : p a = false := hpre a (by simp)
      rw [List.find?_cons_of_neg l (by simp [hb])]
      exact ih t ht ⟨pre2, post, h2, fun u hu => hpre u (by simp [hu])⟩

/-- C5 amended: among documents with at least one table, the Extractor
selects the first table (in document order) whose space-joined `class`
attribute string contains `"table"` as a substring (Python
`'table' in ' '.join(class_attr)`, the `hasTableClass` predicate), and
falls back to the first table in document order when no table
satisfies it. -/
theorem claim_C5_amended (tables : List HtmlTable) (t : HtmlTable) :
    selectTable tables = some t ↔
      ((hasTableClass t = true ∧ ∃ pre post, tables = pre ++ t :: post ∧
          ∀ u ∈ pre, hasTableClass u = false) ∨
        ((∀ u ∈ tables, hasTableClass u = false) ∧ tables.head? = some t)) := by
  constructor
  · intro h
    unfold selectTable at h
    cases hf : tables.find? hasTableClass with
    | some u =>
      rw [hf] at h
      injection h with h
      subst h
      rw [List.find?_eq_some] at hf
      obtain ⟨hp, pre, post, heq, hall⟩ := hf
      exact Or.inl ⟨hp, pre, post, heq, fun v hv => by simpa using hall v hv⟩
    | none =>
      rw [hf] at h
      refine Or.inr ⟨fun u hu => ?_, h⟩
      have := List.find?_eq_none.mp hf u hu
      simpa using this
  · intro h
    unfold selectTable
    rcases h with ⟨ht, pre, post, heq, hpre⟩ | ⟨hall, hh⟩
    · rw [first_match_find? hasTableClass tables t ht ⟨pre, post, heq, hpre⟩]
    · rw [List.find?_eq_none.mpr (fun u hu => by simp [hall u hu])]
      exact hh

/-- C5 counterexample: no table of this document carries the class
*token* `"table"`, so the claim requires the fallback (the first table),
yet the code selects the second table, whose joined class string
`"stable"` contains `"table"` as a substring. -/
theorem claim_C5_counterexample :
    selectTable [tableA, tableB] = some tableB ∧
    tableB ≠ tableA ∧
    tableA.classAttr = some ["plain"] ∧
    tableB.classAttr = some ["stable"] ∧
    ¬("table" ∈ ["plain"]) ∧
    ¬("table" ∈ ["stable"]) := by
  decide

theorem claim_C5_witness :
    selectTable [tableA, tableB] = some tableB :=
  (claim_C5_amended [tableA, tableB] tableB).mpr
    (Or.inl ⟨by decide, [tableA], [], rfl, by decide⟩)

/-! ## Row extraction (claims C6 and C9) -/

theorem dropWhile_idem {α : Type} (p : α → Bool) (l : List α) :
    (l.dropWhile p).dropWhile p = l.dropWhile p := by
  cases h : l.dropWhile p with
  | nil => simp
  | cons c t =>
    have hc : p c = false := by
      have hh := List.head?_dropWhile_not p l
      rw [h] at hh
      simpa using hh
    simp [List.dropWhile_cons, hc]

theorem head_false_of_dropWhile_eq_self {α : Type} (p : α → Bool) (c : α) (t : List α)
    (h : (c :: t).dropWhile p = c :: t) : p c = false := by
  cases hpc : p c
  · rfl
  · rw [List.dropWhile_cons, hpc] at h
    simp only [if_true] at h
    have hlen := congrArg List.length h
    have hle : (t.dropWhile p).length ≤ t.length :=
      ((List.dropWhile_suffix p).sublist).length_le
    simp at hlen
    omega

theorem trimChars_idem (l : List Char) : trimChars (trimChars l) = trimChars l := by
  unfold trimChars
  generalize hm : l.dropWhile Char.isWhitespace = m
  have h1 : m.dropWhile Char.isWhitespace = m := by
    rw [← hm]
    exact dropWhile_idem _ l
  have hpre : (m.reverse.dropWhile Char.isWhitespace).reverse <+: m := by
    conv_rhs => rw [← List.reverse_reverse m]
    exact List.reverse_prefix.mpr (List.dropWhile_suffix _)
  have h2 : ((m.reverse.dropWhile Char.isWhitespace).reverse).dropWhile Char.isWhitespace
      = (m.reverse.dropWhile Char.isWhitespace).reverse := by
    cases hr : (m.reverse.dropWhile Char.isWhitespace).reverse with
    | nil => simp
    | cons c t =>
      rw [hr] at hpre
      obtain ⟨u, hu⟩ := hpre
      rw [List.cons_append] at hu
      have hc : Char.isWhitespace c = false := by
        apply head_false_of_dropWhile_eq_self Char.isWhitespace c (t ++ u)
        rw [hu]
        exact h1
      simp [List.dropWhile_cons, hc]
  rw [h2, List.reverse_reverse, dropWhile_idem]

theorem pyStrip_idem (s : String) : pyStrip (pyStrip s) = pyStrip s :=
  congrArg String.mk (trimChars_idem s.data)

theorem dictInsert_fresh {α : Type} (d : List (String × α)) (k : String) (v : α)
    (h : ∀ p ∈ d, p.1 ≠ k) : dictInsert d k v = d ++ [(k, v)] := by
  unfold dictInsert
  rw [if_neg]
  simp only [List.any_eq_true, not_exists, not_and]
  intro p hp
  simpa using h p hp

theorem buildRowData_go (headers : List String) :
    ∀ (cells : List String) (pre post : List String) (acc : List (String × String)),
      headers = pre ++ post → headers.Nodup →
      acc.map Prod.fst = pre →
      cells.length ≤ post.length →
      (cells.enumFrom pre.length).foldl
        (fun row_data ic =>
          dictInsert row_data (headers.getD ic.1 ("column_" ++ toString ic.1))
            (pyStrip ic.2)) acc
        = acc ++ (post.take cells.length).zip (cells.map pyStrip) := by
  intro cells
  induction cells with
  | nil =>
    intro pre post acc _ _ _ _
    simp
  | cons c cs ih =>
    intro pre post acc hsplit hnd hkeys hlen
    cases post with
    | nil => simp at hlen
    | cons h0 post2 =>
      have hget : headers.getD pre.length ("column_" ++ toString pre.length) = h0 := by
        rw [hsplit, List.getD_eq_getElem?_getD,
          List.getElem?_append_right (Nat.le_refl pre.length)]
        simp
      have hnotpre : h0 ∉ pre := by
        rw [hsplit] at hnd
        intro hmem
        exact (List.disjoint_of_nodup_append hnd) hmem (by simp)
      have hfresh : ∀ p ∈ acc, p.1 ≠ h0 := by
        intro p hp heq
        exact hnotpre (heq ▸ (hkeys ▸ List.mem_map_of_mem Prod.fst hp))
      rw [List.enumFrom_cons]
      simp only [List.foldl_cons]
      rw [hget, dictInsert_fresh acc h0 (pyStrip c) hfresh]
      have hrec := ih (pre ++ [h0]) post2 (acc ++ [(h0, pyStrip c)])
        (by rw [hsplit]; simp) hnd (by simp [hkeys]) (by simpa using hlen)
      rw [show pre.length + 1 = (pre ++ [h0]).length by simp] at *
      rw [hrec]
      simp [List.append_assoc]

theorem buildRowData_eq_zip (headers cells : List String) (hnd : headers.Nodup)
    (hlen : cells.length = headers.length) :
    buildRowData headers cells = headers.zip (cells.map pyStrip) := by
  have h := buildRowData_go headers cells [] headers [] rfl hnd rfl (by omega)
  unfold buildRowData
  rw [show cells.enum = cells.enumFrom (List.length ([] : List String)) from rfl]
  rw [h, hlen, List.take_length]
  simp

theorem processRow_guard (headers : List String) (row : HtmlRow)
    (d : List (String × String)) (h : processRow headers row = some d) :
    row.td ≠ [] ∧ headers.length ≤ row.td.length := by
  by_cases hg : row.td ≠ [] ∧ headers.length ≤ row.td.length
  · exact hg
  · simp only [processRow, if_neg hg] at h
    exact Option.noConfusion h

theorem take_headers_length (headers : List String) (row : HtmlRow)
    (hle : headers.length ≤ row.td.length) :
    (row.td.take headers.length).length = headers.length := by
  rw [List.length_take]
  omega

theorem processRow_eq_zip (headers : List String) (row : HtmlRow)
    (hnd : headers.Nodup) (d : List (String × String))
    (h : processRow headers row = some d) :
    d = headers.zip ((row.td.take headers.length).map pyStrip) := by
  obtain ⟨hne, hle⟩ := processRow_guard headers row d h
  simp only [processRow, if_pos (And.intro hne hle)] at h
  rw [buildRowData_eq_zip headers (row.td.take headers.length) hnd
    (take_headers_length headers row hle)] at h
  split at h
  · injection h with h
    exact h.symm
  · cases h

theorem processRow_isSome_iff (headers : List String) (row : HtmlRow)
    (hnd : headers.Nodup) :
    (processRow headers row).isSome = true ↔
      (row.td ≠ [] ∧ headers.length ≤ row.td.length ∧
        ∃ cell ∈ row.td.take headers.length, pyStrip cell ≠ "") := by
  by_cases hg : row.td ≠ [] ∧ headers.length ≤ row.td.length
  · simp only [processRow, if_pos hg]
    rw [buildRowData_eq_zip headers (row.td.take headers.length) hnd
      (take_headers_length headers row hg.2)]
    rw [List.map_snd_zip headers ((row.td.take headers.length).map pyStrip)
      (by rw [List.length_map, take_headers_length headers row hg.2])]
    have hany : ((row.td.take headers.length).map pyStrip).any
        (fun v => !(pyStrip v == "")) = true ↔
        ∃ cell ∈ row.td.take headers.length, pyStrip cell ≠ "" := by
      rw [List.any_map, List.any_eq_true]
      simp [Function.comp, pyStrip_idem]
    by_cases ha : ((row.td.take headers.length).map pyStrip).any
        (fun v => !(pyStrip v == "")) = true
    · rw [if_pos ha]
      simp only [Option.isSome_some, true_iff]
      exact ⟨hg.1, hg.2, hany.mp ha⟩
    · rw [if_neg ha]
      simp only [Option.isSome_none, Bool.false_eq_true, false_iff]
      rintro ⟨-, -, hc⟩
      exact ha (hany.mpr hc)
  · simp only [processRow, if_neg hg, Option.isSome_none, Bool.false_eq_true, false_iff]
    rintro ⟨h1, h2, -⟩
    exact hg ⟨h1, h2⟩

/-- C6 amended: a row is accepted only if it has at least as many `<td>`
cells as there are headers, and — provided the headers are pairwise
distinct — it is accepted exactly when additionally some kept cell has
non-empty trimmed text, in which case the emitted dictionary binds each
header, in position, to the trimmed text of the cell at the same
position (with duplicate headers the Python dictionary collapses
earlier cells, which is what the counterexample exhibits). -/
theorem claim_C6_amended (headers : List String) (row : HtmlRow)
    (hnd : headers.Nodup) :
    ((processRow headers row).isSome = true ↔
      (row.td ≠ [] ∧ headers.length ≤ row.td.length ∧
        ∃ cell ∈ row.td.take headers.length, pyStrip cell ≠ "")) ∧
    (∀ d, processRow headers row = some d →
      d = headers.zip ((row.td.take headers.length).map pyStrip)) :=
  ⟨processRow_isSome_iff headers row hnd,
   fun d h => processRow_eq_zip headers row hnd d h⟩

theorem claim_C6_witness :
    ((processRow ["H"] ⟨[], ["v"]⟩).isSome = true ↔
      ((["v"] : List String) ≠ [] ∧ (["H"] : List String).length ≤ (["v"] : List String).length ∧
        ∃ cell ∈ (["v"] : List String).take (["H"] : List String).length, pyStrip cell ≠ "")) ∧
    (∀ d, processRow ["H"] ⟨[], ["v"]⟩ = some d →
      d = (["H"] : List String).zip (((["v"] : List String).take
        (["H"] : List String).length).map pyStrip)) :=
  claim_C6_amended ["H"] ⟨[], ["v"]⟩ (by decide)

/-- C6 counterexample: with the duplicated header list `["A", "A"]` and
cells `["x", "y"]` the row is accepted, but the emitted dictionary is
`[("A", "y")]`: it does not keep the first `len(headers)` cells each
bound to the header at the same position (that would be
`[("A", "x"), ("A", "y")]`) — the second assignment to the key `"A"`
overwrote the first cell. -/
theorem claim_C6_counterexample :
    processRow ["A", "A"] ⟨[], ["x", "y"]⟩ = some [("A", "y")] ∧
    (["A", "A"] : List String).zip (((["x", "y"] : List String).take 2).map pyStrip) =
      [("A", "x"), ("A", "y")] ∧
    some [("A", "y")] ≠ some [("A", "x"), ("A", "y")] := by
  decide

theorem reserialize_zip (headers vals : List String) (hnd : headers.Nodup)
    (hlen : headers.length = vals.length) :
    reserialize headers (headers.zip vals) = vals := by
  induction headers generalizing vals with
  | nil =>
    cases vals with
    | nil => rfl
    | cons v vs => simp at hlen
  | cons h hs ih =>
    cases vals with
    | nil => simp at hlen
    | cons v vs =>
      obtain ⟨hnotin, hnd2⟩ := List.nodup_cons.mp hnd
      simp only [reserialize, List.zip_cons_cons, List.map_cons]
      congr 1
      · simp [pyDictGet]
      · have hpoint : ∀ h2 ∈ hs,
            ((pyDictGet ((h, v) :: hs.zip vs) h2).getD "") =
              ((pyDictGet (hs.zip vs) h2).getD "") := by
          intro h2 hh2
          have hne : (h == h2) = false := by
            simp only [beq_eq_false_iff_ne, ne_eq]
            intro heq
            exact hnotin (heq ▸ hh2)
          have hfind : List.find? (fun p => p.1 == h2) ((h, v) :: hs.zip vs)
              = List.find? (fun p => p.1 == h2) (hs.zip vs) := by
            apply List.find?_cons_of_neg
            simp [hne]
          simp [pyDictGet, hfind]
        rw [List.map_congr_left hpoint]
        exact ih vs hnd2 (by simpa using hlen)

theorem parse_html_table_inv (s : Soup) (pr : ParseResult)
    (h : parse_html_table s = some pr) :
    ∃ table header_row body, selectTable s.tables = some table ∧
      table.trs = header_row :: body ∧
      pr.headers = headersOf header_row ∧
      pr.data = body.filterMap (processRow (headersOf header_row)) := by
  unfold parse_html_table at h
  split at h
  · exact Option.noConfusion h
  · rename_i table ht
    split at h
    · exact Option.noConfusion h
    · rename_i header_row body htrs
      simp only [] at h
      split at h
      · exact Option.noConfusion h
      · split at h
        · exact Option.noConfusion h
        · injection h with h
          refine ⟨table, header_row, body, ht, htrs, ?_, ?_⟩
          · rw [← h]
          · rw [← h]

/-- C9 amended: for every parsed document and every emitted row, provided
the emitted headers are pairwise distinct, the row came from a `<tr>` of
the selected table after the header row, and reading the emitted mapping
back in header order reproduces exactly the trimmed text of that row's
first `len(headers)` `<td>` cells. -/
theorem claim_C9_amended (s : Soup) (pr : ParseResult)
    (h : parse_html_table s = some pr) (hnd : pr.headers.Nodup) :
    ∀ d ∈ pr.data, ∃ table row, selectTable s.tables = some table ∧
      row ∈ table.trs.tail ∧ processRow pr.headers row = some d ∧
      reserialize pr.headers d = (row.td.take pr.headers.length).map pyStrip := by
  intro d hd
  obtain ⟨table, header_row, body, ht, htrs, hh, hdata⟩ := parse_html_table_inv s pr h
  rw [hdata] at hd
  obtain ⟨row, hrow, hpr⟩ := List.mem_filterMap.mp hd
  rw [← hh] at hpr
  refine ⟨table, row, ht, by rw [htrs]; exact hrow, hpr, ?_⟩
  have hzip := processRow_eq_zip pr.headers row hnd d hpr
  rw [hzip]
  exact reserialize_zip pr.headers ((row.td.take pr.headers.length).map pyStrip) hnd
    (by rw [List.length_map,
      take_headers_length pr.headers row (processRow_guard pr.headers row d hpr).2])

theorem claim_C9_witness :
    ∃ table row, selectTable soupW.tables = some table ∧
      row ∈ table.trs.tail ∧ processRow ["H"] row = some [("H", "v")] ∧
      reserialize ["H"] [("H", "v")] = (row.td.take 1).map pyStrip :=
  claim_C9_amended soupW ⟨["H"], [[("H", "v")]], 1, none⟩ (by decide) (by decide)
    [("H", "v")] (by decide)

/-- C9 counterexample: on a table whose two headers are both `"A"`, the
Extractor succeeds and emits the row `[("A", "y")]`, but re-serializing
that row in header order yields `["y", "y"]`, not the trimmed cell text
`["x", "y"]` of the row's first two `<td>` cells — the round trip fails
on duplicate headers. -/
theorem claim_C9_counterexample :
    parse_html_table soupDup = some ⟨["A", "A"], [[("A", "y")]], 1, none⟩ ∧
    reserialize ["A", "A"] [("A", "y")] = ["y", "y"] ∧
    ((["x", "y"] : List String).take 2).map pyStrip = ["x", "y"] ∧
    reserialize ["A", "A"] [("A", "y")] ≠
      ((["x", "y"] : List String).take 2).map pyStrip := by
  decide

/-! ## Pivot column names (claim C8) -/

theorem pyReplaceChar_data (s : String) (a : Char) (b : String) :
    (pyReplaceChar s a b).data = s.data.flatMap (fun c => if c = a then b.data else [c]) :=
  rfl

theorem col_pref_data (category indicator_name : String) :
    (col_pref category indicator_name).data =
      ((category ++ "_" ++ indicator_name).data).flatMap prefixCharMap := by
  unfold col_pref
  generalize category ++ "_" ++ indicator_name = s
  rw [pyReplaceChar_data, pyReplaceChar_data, pyReplaceChar_data, pyReplaceChar_data,
    pyReplaceChar_data, List.flatMap_assoc, List.flatMap_assoc, List.flatMap_assoc,
    List.flatMap_assoc]
  apply congrArg
  funext c
  by_cases h1 : c = ' '
  · subst h1; decide
  by_cases h2 : c = '('
  · subst h2; decide
  by_cases h3 : c = ')'
  · subst h3; decide
  by_cases h4 : c = '/'
  · subst h4; decide
  by_cases h5 : c = '-'
  · subst h5; decide
  simp [prefixCharMap, h1, h2, h3, h4, h5]

/-- C8 amended: for every (category, data row) pair the pivot projection
emits exactly the four columns `{prefix}_2024`, `{prefix}_2023`,
`{prefix}_2022` and `{prefix}_unit`, where the prefix is obtained from
`"{category}_{indicator}"` by the character substitution that maps every
space, `/` and `-` to an underscore and *removes* every `(` and `)`
(it does not replace parentheses with underscores). -/
theorem claim_C8_amended :
    (∀ category indicator_name : String,
      (col_pref category indicator_name).data =
        ((category ++ "_" ++ indicator_name).data).flatMap prefixCharMap) ∧
    (∀ (category : String) (indicator_row : List (String × String)),
      pivotEntriesFor category indicator_row =
        [(col_pref category (pyDictGetD indicator_row "Indicator" "") ++ "_2024",
            pyDictGet indicator_row "2024"),
         (col_pref category (pyDictGetD indicator_row "Indicator" "") ++ "_2023",
            pyDictGet indicator_row "2023"),
         (col_pref category (pyDictGetD indicator_row "Indicator" "") ++ "_2022",
            pyDictGet indicator_row "2022"),
         (col_pref category (pyDictGetD indicator_row "Indicator" "") ++ "_unit",
            some (pyDictGetD indicator_row "Unit" ""))]) :=
  ⟨col_pref_data, fun _ _ => rfl⟩

/-- C8 counterexample: on category `"c"` and indicator text `"(a)"` the
code produces the prefix `"c_a"` (parentheses removed), while replacing
every occurrence of `(` and `)` by an underscore, as the claim states,
would produce `"c__a_"`. -/
theorem claim_C8_counterexample :
    col_pref "c" "(a)" = "c_a" ∧
    col_pref_claimed "c" "(a)" = "c__a_" ∧
    col_pref "c" "(a)" ≠ col_pref_claimed "c" "(a)" := by
  decide

theorem endpointStep_fst_isSome_iff (env : Env) (c : Company) (ep url : String) :
    (endpointStep env c ep url).1.isSome = true ↔ attemptYieldsData env url := by
  unfold endpointStep
  cases hf : envFetch env url with
  | raised msg => simp [attemptYieldsData, hf]
  | notFound => simp [attemptYieldsData, hf]
  | content html =>
    by_cases hs : pyStrip html = ""
    · simp [attemptYieldsData, hf, hs]
    · cases hp : parse_html_table (env.soupOf html) with
      | none => simp [attemptYieldsData, hf, hs, hp]
      | some pd =>
        by_cases hrc : 0 < pd.row_count
        · simp [attemptYieldsData, hf, hs, hp, hrc]
        · simp [attemptYieldsData, hf, hs, hp, hrc]

theorem endpointStep_raised (env : Env) (c : Company) (ep url msg : String)
    (h : envFetch env url = .raised msg) :
    endpointStep env c ep url =
      (none, [⟨c.name, c.isin, c.mic, ep, msg, url⟩]) := by
  unfold endpointStep
  rw [h]

theorem endpointStep_snd_cases (env : Env) (c : Company) (ep url : String) :
    (endpointStep env c ep url).2 = [] ∨
    ∃ msg, envFetch env url = .raised msg ∧
      (endpointStep env c ep url).2 = [⟨c.name, c.isin, c.mic, ep, msg, url⟩] := by
  cases hf : envFetch env url with
  | raised msg =>
    right
    exact ⟨msg, rfl, by rw [endpointStep_raised env c ep url msg hf]⟩
  | notFound =>
    left
    unfold endpointStep
    rw [hf]
  | content html =>
    left
    unfold endpointStep
    rw [hf]
    by_cases hs : pyStrip html = ""
    · simp [hs]
    · cases hp : parse_html_table (env.soupOf html) with
      | none => simp [hs, hp]
      | some pd => by_cases hrc : 0 < pd.row_count <;> simp [hs, hp, hrc]

theorem scrape_company_snd (env : Env) (c : Company) :
    (scrape_company env c).2 =
      ((companyAttempts c).map (fun p => (endpointStep env c p.1 p.2).2)).flatten := by
  simp only [scrape_company, List.map_map]
  rfl

theorem scrape_company_fst_isSome (env : Env) (c : Company) :
    (scrape_company env c).1.isSome = true ↔
      ∃ p ∈ companyAttempts c, attemptYieldsData env p.2 := by
  have hiff : (scrape_company env c).1.isSome = true ↔
      ¬(((companyAttempts c).map fun p => endpointStep env c p.1 p.2).filterMap
          fun s => s.1) = [] := by
    simp only [scrape_company]
    by_cases he : (((companyAttempts c).map fun p => endpointStep env c p.1 p.2).filterMap
        fun s => s.1) = []
    · simp [he]
    · simp [he]
  rw [hiff]
  constructor
  · intro hne
    have hx : ¬ ∀ a ∈ (companyAttempts c).map fun p => endpointStep env c p.1 p.2,
        a.1 = none := fun hall => hne (List.filterMap_eq_nil_iff.mpr hall)
    push_neg at hx
    obtain ⟨st, hst, hne2⟩ := hx
    obtain ⟨p, hp, hpe⟩ := List.mem_map.mp hst
    refine ⟨p, hp, (endpointStep_fst_isSome_iff env c p.1 p.2).mp ?_⟩
    rw [hpe]
    exact Option.isSome_iff_ne_none.mpr hne2
  · rintro ⟨p, hp, hd⟩ hnil
    rw [List.filterMap_eq_nil_iff] at hnil
    have h1 := hnil (endpointStep env c p.1 p.2) (List.mem_map_of_mem _ hp)
    have h2 := (endpointStep_fst_isSome_iff env c p.1 p.2).mpr hd
    rw [h1] at h2
    exact Bool.noConfusion h2

theorem filter_endpointStep_ne (env : Env) (c : Company) (ep url ep2 : String)
    (hne : ep ≠ ep2) :
    ((endpointStep env c ep url).2.filter (fun f => f.endpoint == ep2)) = [] := by
  rcases endpointStep_snd_cases env c ep url with h | ⟨msg, -, h⟩
  · rw [h]
    rfl
  · rw [h]
    simp [hne]

theorem filter_endpointStep_raised (env : Env) (c : Company) (ep url msg : String)
    (h : envFetch env url = .raised msg) :
    ((endpointStep env c ep url).2.filter (fun f => f.endpoint == ep)) =
      [⟨c.name, c.isin, c.mic, ep, msg, url⟩] := by
  rw [endpointStep_raised env c ep url msg h]
  simp

theorem scrape_company_esg_data (env : Env) (c : Company) (d : CompanyData)
    (hd : (scrape_company env c).1 = some d) :
    d.esg_data = (companyAttempts c).filterMap (fun q => (endpointStep env c q.1 q.2).1) := by
  simp only [scrape_company] at hd
  by_cases he : (((companyAttempts c).map fun p => endpointStep env c p.1 p.2).filterMap
      fun s => s.1) = []
  · simp [he] at hd
  · simp only [List.isEmpty_eq_true, he, if_false] at hd
    injection hd with hd
    rw [← hd]
    exact (List.filterMap_map _ _ _).symm

/-- C2: for every entity and every one of its four endpoint attempts
(the ratings endpoint included), a transport error — a request whose
retries are exhausted and whose failure is re-raised — appends exactly
one failure record, carrying the entity name, ISIN, MIC, endpoint name,
error text and URL; the other endpoints contribute no record under that
endpoint name, and the per-endpoint failure never suppresses the results
collected from the remaining endpoints (the emitted record's `esg_data`
is always the per-attempt collection over all four attempts). -/
theorem claim_C2 (env : Env) (c : Company) (p : String × String)
    (hp : p ∈ companyAttempts c) (msg : String)
    (h : envFetch env p.2 = .raised msg) :
    ((scrape_company env c).2.filter (fun f => f.endpoint == p.1)) =
      [⟨c.name, c.isin, c.mic, p.1, msg, p.2⟩] ∧
    (∀ d, (scrape_company env c).1 = some d →
      d.esg_data = (companyAttempts c).filterMap
        (fun q => (endpointStep env c q.1 q.2).1)) := by
  refine ⟨?_, fun d hd => scrape_company_esg_data env c d hd⟩
  rw [scrape_company_snd]
  simp only [companyAttempts, endpoints, List.map_cons, List.map_nil, List.map_append,
    List.cons_append, List.nil_append, List.flatten, List.filter_append] at hp ⊢
  simp only [List.mem_cons, List.mem_singleton, List.not_mem_nil, or_false] at hp
  rcases hp with hp | hp | hp | hp <;> subst hp <;>
    simp only at h ⊢ <;>
    rw [filter_endpointStep_raised env c _ _ msg h] <;>
    (repeat rw [filter_endpointStep_ne env c _ _ _ (by decide)]) <;>
    simp

theorem runScraper_go (env : Env) :
    ∀ (companies : List Company) (acc : List CompanyData × List FailureRec),
      companies.foldl
        (fun acc c =>
          (acc.1 ++ ((scrape_company env c).1).toList, acc.2 ++ (scrape_company env c).2))
        acc
        = (acc.1 ++ companies.filterMap (fun c => (scrape_company env c).1),
           acc.2 ++ (companies.map (fun c => (scrape_company env c).2)).flatten) := by
  intro companies
  induction companies with
  | nil =>
    intro acc
    simp
  | cons c cs ih =>
    intro acc
    simp only [List.foldl_cons]
    rw [ih]
    cases h : (scrape_company env c).1 <;>
      simp [List.filterMap_cons, h, List.append_assoc]

theorem runScraper_eq (env : Env) (companies : List Company) :
    runScraper env companies =
      (companies.filterMap (fun c => (scrape_company env c).1),
       (companies.map (fun c => (scrape_company env c).2)).flatten) := by
  unfold runScraper
  rw [runScraper_go]
  simp

/-- C10: the run metadata always satisfies
`attempted = successes + failures`, the failure count being the number of
per-endpoint failure records; appending one more entity to a run adds to
the attempted count exactly (1 if the entity was emitted, else 0) plus
the number of failure records its endpoints produced — so an entity with
several transport errors counts several times and an entity with no data
and no failures counts zero times. -/
theorem claim_C10 (env : Env) (tm : Bool) (companies : List Company) :
    ((save_results_metadata (runScraper env companies).1 (runScraper env companies).2
        tm).total_companies_attempted =
      (save_results_metadata (runScraper env companies).1 (runScraper env companies).2
        tm).successful_companies +
      (save_results_metadata (runScraper env companies).1 (runScraper env companies).2
        tm).failed_companies) ∧
    ((save_results_metadata (runScraper env companies).1 (runScraper env companies).2
        tm).failed_companies = (runScraper env companies).2.length) ∧
    (∀ c, (runScraper env (companies ++ [c])).1.length +
        (runScraper env (companies ++ [c])).2.length =
      (runScraper env companies).1.length + (runScraper env companies).2.length +
        ((if (scrape_company env c).1.isSome then 1 else 0) +
          (scrape_company env c).2.length)) := by
  refine ⟨rfl, rfl, ?_⟩
  intro c
  rw [runScraper_eq, runScraper_eq]
  simp only [List.filterMap_append, List.map_append, List.flatten_append,
    List.length_append]
  cases h : (scrape_company env c).1 <;> simp [h] <;> omega

/-- C1: an entity record is emitted if and only if at least one of the
four endpoint attempts produced an extraction result with
`row_count > 0`; an emitted record never has an empty `esg_data`
mapping (a dropped entity yields no record at all); and the success
dataset built by the driver loop is exactly the list of emitted records
in input order. -/
theorem claim_C1 (env : Env) (c : Company) :
    ((scrape_company env c).1.isSome = true ↔
      ∃ p ∈ companyAttempts c, attemptYieldsData env p.2) ∧
    (∀ d, (scrape_company env c).1 = some d → d.esg_data ≠ []) ∧
    (∀ companies : List Company, (runScraper env companies).1 =
      companies.filterMap (fun c2 => (scrape_company env c2).1)) := by
  refine ⟨scrape_company_fst_isSome env c, ?_,
    fun companies => congrArg Prod.fst (runScraper_eq env companies)⟩
  intro d hd
  simp only [scrape_company] at hd
  by_cases he : (((companyAttempts c).map fun p => endpointStep env c p.1 p.2).filterMap
      fun s => s.1) = []
  · simp [he] at hd
  · simp only [List.isEmpty_eq_true, he, if_false] at hd
    injection hd with hd
    rw [← hd]
    exact he

theorem claim_C1_witness :
    (scrape_company envA companyW).1.isSome = true :=
  (claim_C1 envA companyW).1.mpr
    ⟨("esg_ratings", "https://live.euronext.com/en/ajax/getEsgRatingsBlock/IS1-XPAR"),
      by decide,
      ⟨"T", ⟨["H"], [[("H", "v")]], 1, none⟩, by decide, by decide, by decide, by decide⟩⟩

theorem claim_C2_witness :
    ((scrape_company envB companyW).2.filter (fun f => f.endpoint == "esg_ratings")) =
      [⟨"Acme", "IS1", "XPAR", "esg_ratings", "boom",
        "https://live.euronext.com/en/ajax/getEsgRatingsBlock/IS1-XPAR"⟩] ∧
    (∀ d, (scrape_company envB companyW).1 = some d →
      d.esg_data = (companyAttempts companyW).filterMap
        (fun q => (endpointStep envB companyW q.1 q.2).1)) :=
  claim_C2 envB companyW
    ("esg_ratings", "https://live.euronext.com/en/ajax/getEsgRatingsBlock/IS1-XPAR")
    (by decide) "boom" (by decide)
